import Mathlib

/-!
Verification development for the Driverator library
(src/driverator/driverator.py), a thin wrapper around the Google Drive
v3 API with local JSON metadata caching.

Modelling conventions:
* The remote Drive service is external to the repository; it is embedded
  as an explicit state `DriveSt` (files, permissions) together with an
  oracle part (`newIds`: the ids the provider will assign to created
  objects/permissions, `uploadInfo`: the metadata the provider reports
  for media transfers, `faulty`: file ids whose `files.get` calls fail,
  covering network errors and the 404 raised for missing objects).
* Every operation additionally returns the list of remote calls it
  issued, in order (`RemoteCall`), so that "no remote call is issued"
  and call-shape properties are provable.
* Python string truthiness (`if self.file_id:` etc.) is modelled by
  `truthy` on `Option String`: `None` and the empty string are falsy.
* The JSONCache superclass (cacherator, external) is modelled as a
  write-through mirror: `Cache` holds a save counter and the last
  record saved; `json_cache_save` bumps the counter and stores the
  current handle.  Cache reads are never consulted by the wrapper code.
* Query strings built for `files().list` are represented structurally
  (`Query`): both query builders emit exactly the clauses
  `name='{name}'`, `trashed=false`, a mimeType constraint and an
  optional `'{parent}' in parents` clause; `Query` records those
  fields and `matchesQuery` evaluates them.
* The comma-joined `removeParents` wire string of `move` is modelled as
  the underlying list of parent ids (the provider splits on commas).
-/

/-- Python truthiness of an optional string: `None` and `""` are falsy. -/
def truthy : Option String → Bool
  | none => false
  | some s => !s.isEmpty

/-- The Drive folder mime type used by the source. -/
def folderMime : String := "application/vnd.google-apps.folder"

/-- View URL built by the `url` property and `_load_metadata`/`upload`. -/
def viewUrl (fid : String) : String :=
  "https://drive.google.com/file/d/" ++ fid ++ "/view"

/-- Download URL built by the `download_url` property and `_load_metadata`/`upload`. -/
def downloadUrlOf (fid : String) : String :=
  "https://drive.google.com/uc?export=download&id=" ++ fid

/-- The in-memory state of a `Driverator` instance: the constructor
arguments plus the lazily-populated metadata attributes.  `urlF` and
`downloadUrlF` model the `_url`/`_download_url` attributes, which are
absent (`none`) until first set. -/
structure Handle where
  fileId : Option String
  fileName : Option String
  folderId : Option String
  folderName : Option String
  size : Option String
  mimeType : Option String
  createdTime : Option String
  modifiedTime : Option String
  urlF : Option String
  downloadUrlF : Option String
deriving DecidableEq

/-- `Driverator.__init__`: stores the four identifiers, leaves all
metadata attributes unset. -/
def mkHandle (fileId fileName folderId folderName : Option String) : Handle :=
  { fileId := fileId, fileName := fileName, folderId := folderId,
    folderName := folderName, size := none, mimeType := none,
    createdTime := none, modifiedTime := none, urlF := none,
    downloadUrlF := none }

/-- `cache_id = f"driverator_{file_name or file_id or 'file'}"` —
Python `or` picks the first truthy operand. -/
def mkCacheId (fileName fileId : Option String) : String :=
  "driverator_" ++
    (if truthy fileName then fileName.getD ("")
     else if truthy fileId then fileId.getD ("")
     else "file")

/-- The write-through metadata cache: number of saves so far and the
last record written. -/
abbrev Cache := Nat × Option Handle

/-- `self.json_cache_save()`: rewrite the cache entry with the current
handle state. -/
def jsonCacheSave (h : Handle) (c : Cache) : Cache := (c.1 + 1, some h)

/-- A remote file/folder object as held by the modelled Drive service. -/
structure DriveFile where
  name : String
  mimeType : String
  parents : List String
  trashed : Bool
  size : Option String
  createdTime : Option String
  modifiedTime : Option String
deriving DecidableEq

/-- A permission entry on a remote object. -/
structure Permission where
  id : String
  ptype : String
  role : String
  emailAddress : Option String
deriving DecidableEq

/-- Provider-determined metadata for a media transfer. -/
structure UploadMeta where
  size : Option String
  mimeType : Option String
  createdTime : Option String
  modifiedTime : Option String
deriving DecidableEq

/-- Structural form of the query strings built for `files().list`:
exact name match, `trashed=false` (always emitted), a folder /
non-folder mimeType constraint, and an optional parent scope. -/
structure Query where
  name : String
  isFolder : Bool
  parent : Option String
deriving DecidableEq

/-- The modelled remote Drive state plus provider oracle. -/
structure DriveSt where
  files : List (String × DriveFile)
  perms : List (String × Permission)
  newIds : List String
  uploadInfo : List UploadMeta
  faulty : List String
deriving DecidableEq

/-- One remote API call, as issued by the wrapper. -/
inductive RemoteCall
  | filesGet (fileId : String) (fields : String)
  | filesList (q : Query)
  | filesCreate (name : String) (mimeType : Option String) (parents : List String)
      (hasMedia : Bool)
  | filesUpdate (fileId : String) (newName : Option String) (setTrashed : Option Bool)
      (addParents : Option String) (removeParents : Option (List String)) (hasMedia : Bool)
  | filesDelete (fileId : String)
  | permsCreate (fileId : String) (ptype : String) (role : String)
      (email : Option String) (sendNote : Option Bool)
  | permsList (fileId : String)
  | permsDelete (fileId : String) (permId : String)
  | getMedia (fileId : String)
deriving DecidableEq

/-- Errors raised by the wrapper: `ValueError(msg)` from the source, or
a propagated remote (HTTP) failure. -/
inductive Err
  | valueError (msg : String)
  | remoteError
deriving DecidableEq

/-- The `ValueError` message every fileId precondition check raises. -/
def noFileIdMsg : String := "No file_id set. Call initialize() or upload() first."

/-- The `ValueError` message `move` raises when no target folder is given. -/
def moveMsg : String := "Must provide folder_id or folder_name"

instance exceptDecEq {α β : Type} [DecidableEq α] [DecidableEq β] :
    DecidableEq (Except α β) := fun x y =>
  match x, y with
  | .ok a, .ok b =>
      if h : a = b then isTrue (by rw [h])
      else isFalse (by intro hh; cases hh; exact h rfl)
  | .error a, .error b =>
      if h : a = b then isTrue (by rw [h])
      else isFalse (by intro hh; cases hh; exact h rfl)
  | .ok _, .error _ => isFalse (by intro hh; cases hh)
  | .error _, .ok _ => isFalse (by intro hh; cases hh)

/-- Result of one operation: outcome (new handle or error), cache,
remote state, and the remote calls issued, in order. -/
structure OpOut where
  res : Except Err Handle
  cache : Cache
  drive : DriveSt
  calls : List RemoteCall
deriving DecidableEq

/-- Look a file up by id in the modelled remote state. -/
def lookupFile (d : DriveSt) (fid : String) : Option DriveFile :=
  (d.files.find? (fun p => p.1 == fid)).map (fun p => p.2)

/-- Evaluate a structural query against one remote object. -/
def matchesQuery (q : Query) (f : DriveFile) : Bool :=
  f.name == q.name && !f.trashed &&
    (if q.isFolder then f.mimeType == folderMime else !(f.mimeType == folderMime)) &&
    (match q.parent with
     | none => true
     | some p => f.parents.contains p)

/-- `files().list(q=...)`: ids of the matching objects, in provider
(here: state) order. -/
def filesListIds (d : DriveSt) (q : Query) : List String :=
  (d.files.filter (fun p => matchesQuery q p.2)).map (fun p => p.1)

/-- The permissions of one remote object, in state order. -/
def permsOf (d : DriveSt) (fid : String) : List Permission :=
  (d.perms.filter (fun p => p.1 == fid)).map (fun p => p.2)

/-- `url` property: lazily computes and stores `_url` on first access
when `file_id` is truthy; returns the stored value or `None`. -/
def urlRead (h : Handle) : Handle × Option String :=
  match h.urlF with
  | some u => (h, some u)
  | none =>
      if truthy h.fileId then
        let u := viewUrl (h.fileId.getD (""))
        ({ h with urlF := some u }, some u)
      else (h, none)

/-- `download_url` property, same lazy pattern as `url`. -/
def downloadUrlRead (h : Handle) : Handle × Option String :=
  match h.downloadUrlF with
  | some u => (h, some u)
  | none =>
      if truthy h.fileId then
        let u := downloadUrlOf (h.fileId.getD (""))
        ({ h with downloadUrlF := some u }, some u)
      else (h, none)

/-- `exists()`: false without any remote call when `file_id` is falsy;
otherwise one `files().get` whose any failure (fault injection or
missing object, i.e. 404) is swallowed to `false`; on success, true iff
not trashed. -/
def existsOp (h : Handle) (d : DriveSt) : Bool × List RemoteCall :=
  if !truthy h.fileId then (false, [])
  else
    let fid := h.fileId.getD ("")
    let t : List RemoteCall := [.filesGet fid ("id, trashed")]
    if d.faulty.contains fid then (false, t)
    else
      match lookupFile d fid with
      | none => (false, t)
      | some f => (!f.trashed, t)

/-- `_find_file_by_name(name)`: non-folder, non-trashed, exact name,
scoped to `self._folder_id` when truthy; first result or `None`. -/
def findFileByName (h : Handle) (d : DriveSt) (name : String) :
    Option String × List RemoteCall :=
  let q : Query := ⟨name, false, if truthy h.folderId then h.folderId else none⟩
  ((filesListIds d q).head?, [.filesList q])

/-- `_find_folder_by_name(name, parent_folder_id=None)`: folder-typed,
non-trashed, exact name, scoped to the explicit parent if truthy, else
to `self._folder_id` if truthy; first result or `None`. -/
def findFolderByName (h : Handle) (d : DriveSt) (name : String)
    (parentFolderId : Option String) : Option String × List RemoteCall :=
  let parent := if truthy parentFolderId then parentFolderId
                else if truthy h.folderId then h.folderId
                else none
  let q : Query := ⟨name, true, parent⟩
  ((filesListIds d q).head?, [.filesList q])

/-- `_create_folder(name, parent_folder_id=None)`: creates a folder
object under the explicit parent if truthy, else under
`self._folder_id` if truthy, else parentless; returns the new id (the
provider assigns the next oracle id). -/
def createFolder (h : Handle) (d : DriveSt) (name : String)
    (parentFolderId : Option String) : String × DriveSt × List RemoteCall :=
  let parents := if truthy parentFolderId then [parentFolderId.getD ("")]
                 else if truthy h.folderId then [h.folderId.getD ("")]
                 else []
  let newId := d.newIds.headD ("")
  let nf : DriveFile := ⟨name, folderMime, parents, false, none, none, none⟩
  (newId,
   { d with files := d.files ++ [(newId, nf)], newIds := d.newIds.tail },
   [.filesCreate name (some folderMime) parents false])

/-- `_load_metadata()`: one `files().get` for the metadata fields; on
success copies them into the handle, rebuilds both URL attributes from
the current `file_id`, and saves the cache.  A remote failure (fault or
missing object) propagates. -/
def loadMetadata (h : Handle) (c : Cache) (d : DriveSt) :
    Except Err Handle × Cache × List RemoteCall :=
  let fid := h.fileId.getD ("")
  let t : List RemoteCall := [.filesGet fid ("id, name, mimeType, size, createdTime, modifiedTime")]
  if d.faulty.contains fid then (.error .remoteError, c, t)
  else
    match lookupFile d fid with
    | none => (.error .remoteError, c, t)
    | some f =>
        let h' := { h with fileName := some f.name, size := f.size,
                           mimeType := some f.mimeType,
                           createdTime := f.createdTime,
                           modifiedTime := f.modifiedTime,
                           urlF := some (viewUrl fid),
                           downloadUrlF := some (downloadUrlOf fid) }
        (.ok h', jsonCacheSave h' c, t)

/-- Lines 36-39 of `initialize`: find-or-create the folder when a
folder name but no (truthy) folder id was supplied.  Mirrors the
source's assignment order: `_folder_id` receives the find result
(possibly `None`) before `_create_folder` runs. -/
def initFolderStep (h : Handle) (d : DriveSt) :
    Handle × DriveSt × List RemoteCall :=
  if truthy h.folderName && !truthy h.folderId then
    let fr := findFolderByName h d (h.folderName.getD ("")) none
    let hA := { h with folderId := fr.1 }
    if !truthy hA.folderId then
      let cr := createFolder hA d (hA.folderName.getD ("")) none
      ({ hA with folderId := some cr.1 }, cr.2.1, fr.2 ++ cr.2.2)
    else (hA, d, fr.2)
  else (h, d, [])

/-- Lines 41-42 of `initialize`: resolve the file name when no (truthy)
file id is set; the find result (possibly `None`) is adopted as-is. -/
def initFileStep (h : Handle) (d : DriveSt) : Handle × List RemoteCall :=
  if truthy h.fileName && !truthy h.fileId then
    let fr := findFileByName h d (h.fileName.getD (""))
    ({ h with fileId := fr.1 }, fr.2)
  else (h, [])

/-- `initialize()`: authentication is external (no-op here); then the
folder step, the file step, and — only when `file_id` is truthy and
`exists()` returns true — a metadata load. -/
def initOp (h : Handle) (c : Cache) (d : DriveSt) : OpOut :=
  let s1 := initFolderStep h d
  let d1 := s1.2.1
  let s2 := initFileStep s1.1 d1
  let h2 := s2.1
  let t12 := s1.2.2 ++ s2.2
  if truthy h2.fileId then
    let ex := existsOp h2 d1
    if ex.1 then
      let lm := loadMetadata h2 c d1
      match lm.1 with
      | .ok h3 => ⟨.ok h3, lm.2.1, d1, t12 ++ ex.2 ++ lm.2.2⟩
      | .error e => ⟨.error e, lm.2.1, d1, t12 ++ ex.2 ++ lm.2.2⟩
    else ⟨.ok h2, c, d1, t12 ++ ex.2⟩
  else ⟨.ok h2, c, d1, t12⟩

/-- `Path(local_path).name`: the last non-empty slash-separated
component of the path (pathlib drops a trailing separator). -/
def baseName (p : String) : String :=
  ((p.splitOn ("/")).filter (fun s => !s.isEmpty)).getLastD ("")

/-- `upload(local_path)`: always a `files().create` with media; name is
the explicit file name if truthy, else the local base name; parent is
the resolved folder if truthy.  On success every metadata field, both
URL attributes and `file_id` are replaced from the provider's response
and the cache is saved. -/
def uploadOp (h : Handle) (c : Cache) (d : DriveSt) (localPath : String) : OpOut :=
  let uploadName := if truthy h.fileName then h.fileName.getD ("") else baseName localPath
  let parents := if truthy h.folderId then [h.folderId.getD ("")] else []
  let newId := d.newIds.headD ("")
  let um := d.uploadInfo.headD ⟨none, none, none, none⟩
  let nf : DriveFile := ⟨uploadName, um.mimeType.getD (""), parents, false,
                         um.size, um.createdTime, um.modifiedTime⟩
  let h' := { h with fileId := some newId, fileName := some uploadName,
                     size := um.size, mimeType := um.mimeType,
                     createdTime := um.createdTime, modifiedTime := um.modifiedTime,
                     urlF := some (viewUrl newId),
                     downloadUrlF := some (downloadUrlOf newId) }
  ⟨.ok h', jsonCacheSave h' c,
    { d with files := d.files ++ [(newId, nf)], newIds := d.newIds.tail,
             uploadInfo := d.uploadInfo.tail },
    [.filesCreate uploadName none parents true]⟩

/-- `update(local_path)`: fileId precondition, then one `files().update`
with media; refreshes `size`, `mimeType`, `modifiedTime` from the
response and saves the cache. -/
def updateOp (h : Handle) (c : Cache) (d : DriveSt) (_localPath : String) : OpOut :=
  if !truthy h.fileId then ⟨.error (.valueError noFileIdMsg), c, d, []⟩
  else
    let fid := h.fileId.getD ("")
    let t : List RemoteCall := [.filesUpdate fid none none none none true]
    match lookupFile d fid with
    | none => ⟨.error .remoteError, c, d, t⟩
    | some f =>
        let um := d.uploadInfo.headD ⟨none, none, none, none⟩
        let f' := { f with size := um.size, mimeType := um.mimeType.getD f.mimeType,
                           modifiedTime := um.modifiedTime }
        let h' := { h with size := f'.size, mimeType := some f'.mimeType,
                           modifiedTime := f'.modifiedTime }
        ⟨.ok h', jsonCacheSave h' c,
          { d with files := d.files.map (fun p => if p.1 == fid then (p.1, f') else p),
                   uploadInfo := d.uploadInfo.tail }, t⟩

/-- `download(local_path)`: fileId precondition, then a `get_media`
streaming transfer into the local file (local filesystem and chunk loop
are external transport). -/
def downloadOp (h : Handle) (c : Cache) (d : DriveSt) (_localPath : String) : OpOut :=
  if !truthy h.fileId then ⟨.error (.valueError noFileIdMsg), c, d, []⟩
  else ⟨.ok h, c, d, [.getMedia (h.fileId.getD (""))]⟩

/-- `rename(new_name)`: fileId precondition, one metadata
`files().update`, then `file_name` is replaced and the cache saved. -/
def renameOp (h : Handle) (c : Cache) (d : DriveSt) (newName : String) : OpOut :=
  if !truthy h.fileId then ⟨.error (.valueError noFileIdMsg), c, d, []⟩
  else
    let fid := h.fileId.getD ("")
    let t : List RemoteCall := [.filesUpdate fid (some newName) none none none false]
    match lookupFile d fid with
    | none => ⟨.error .remoteError, c, d, t⟩
    | some _ =>
        let h' := { h with fileName := some newName }
        ⟨.ok h', jsonCacheSave h' c,
          { d with files := d.files.map (fun p =>
              if p.1 == fid then (p.1, { p.2 with name := newName }) else p) }, t⟩

/-- Lines 226-230 of `move`: the target folder is the explicit
`folder_id` argument; only when a truthy `folder_name` is given and the
target is still falsy is the name resolved find-or-create (scoped per
`_find_folder_by_name`/`_create_folder` against the handle's current
`_folder_id`). -/
def moveResolveTarget (h : Handle) (d : DriveSt)
    (folderIdArg folderNameArg : Option String) :
    Option String × DriveSt × List RemoteCall :=
  if truthy folderNameArg && !truthy folderIdArg then
    let fr := findFolderByName h d (folderNameArg.getD ("")) none
    if truthy fr.1 then (fr.1, d, fr.2)
    else
      let cr := createFolder h d (folderNameArg.getD ("")) none
      (some cr.1, cr.2.1, fr.2 ++ cr.2.2)
  else (folderIdArg, d, [])

/-- `move(folder_id=None, folder_name=None)`: fileId precondition, then
target resolution, then the no-target `ValueError`, then one
`files().get` for the current parents and one `files().update` with
`addParents` = target and `removeParents` = all previous parents; the
handle's folder fields are updated and the cache saved. -/
def moveOp (h : Handle) (c : Cache) (d : DriveSt)
    (folderIdArg folderNameArg : Option String) : OpOut :=
  if !truthy h.fileId then ⟨.error (.valueError noFileIdMsg), c, d, []⟩
  else
    let r := moveResolveTarget h d folderIdArg folderNameArg
    let d1 := r.2.1
    let t1 := r.2.2
    if !truthy r.1 then ⟨.error (.valueError moveMsg), c, d1, t1⟩
    else
      let fid := h.fileId.getD ("")
      let target := r.1.getD ("")
      let tGet : List RemoteCall := [.filesGet fid ("parents")]
      if d1.faulty.contains fid then ⟨.error .remoteError, c, d1, t1 ++ tGet⟩
      else
        match lookupFile d1 fid with
        | none => ⟨.error .remoteError, c, d1, t1 ++ tGet⟩
        | some f =>
            let tUpd : List RemoteCall :=
              [.filesUpdate fid none none (some target) (some f.parents) false]
            let d2 := { d1 with files := d1.files.map (fun p =>
              if p.1 == fid then
                (p.1, { p.2 with parents :=
                  (p.2.parents.filter (fun q => !f.parents.contains q)) ++ [target] })
              else p) }
            let h' := { h with folderId := some target,
                               folderName := if truthy folderNameArg then folderNameArg
                                             else h.folderName }
            ⟨.ok h', jsonCacheSave h' c, d2, t1 ++ tGet ++ tUpd⟩

/-- `delete(permanent=False)`: fileId precondition; permanent issues
`files().delete`, otherwise a `files().update` setting `trashed`.
No handle field changes and no cache save. -/
def deleteOp (h : Handle) (c : Cache) (d : DriveSt) (permanent : Bool) : OpOut :=
  if !truthy h.fileId then ⟨.error (.valueError noFileIdMsg), c, d, []⟩
  else
    let fid := h.fileId.getD ("")
    if permanent then
      let t : List RemoteCall := [.filesDelete fid]
      match lookupFile d fid with
      | none => ⟨.error .remoteError, c, d, t⟩
      | some _ =>
          ⟨.ok h, c, { d with files := d.files.filter (fun p => !(p.1 == fid)) }, t⟩
    else
      let t : List RemoteCall := [.filesUpdate fid none (some true) none none false]
      match lookupFile d fid with
      | none => ⟨.error .remoteError, c, d, t⟩
      | some _ =>
          ⟨.ok h, c, { d with files := d.files.map (fun p =>
            if p.1 == fid then (p.1, { p.2 with trashed := true }) else p) }, t⟩

/-- `Union[str, List[str]]` argument of `share`. -/
inductive Emails
  | one (s : String)
  | many (l : List String)
deriving DecidableEq

/-- One iteration of the `share` loop: one `permissions().create` with
type `user`, the given role, the email, and notification suppressed. -/
def shareStep (fid role : String) (acc : DriveSt × List RemoteCall)
    (email : String) : DriveSt × List RemoteCall :=
  let pid := acc.1.newIds.headD ("")
  let perm : Permission := ⟨pid, "user", role, some email⟩
  ({ acc.1 with perms := acc.1.perms ++ [(fid, perm)], newIds := acc.1.newIds.tail },
   acc.2 ++ [RemoteCall.permsCreate fid ("user") role (some email) (some false)])

/-- `share(email_addresses, role='reader')`: fileId precondition; a
single string becomes a one-element list; then one
`permissions().create` per email, in order.  No handle field changes
and no cache save. -/
def shareOp (h : Handle) (c : Cache) (d : DriveSt) (emails : Emails)
    (role : String) : OpOut :=
  if !truthy h.fileId then ⟨.error (.valueError noFileIdMsg), c, d, []⟩
  else
    let fid := h.fileId.getD ("")
    let list := match emails with
                | .one s => [s]
                | .many l => l
    let out := list.foldl (shareStep fid role) (d, [])
    ⟨.ok h, c, out.1, out.2⟩

/-- `set_anyone_access(role='reader')`: fileId precondition; one
`permissions().create` with type `anyone` and no
`sendNotificationEmail` argument. -/
def setAnyoneAccessOp (h : Handle) (c : Cache) (d : DriveSt) (role : String) : OpOut :=
  if !truthy h.fileId then ⟨.error (.valueError noFileIdMsg), c, d, []⟩
  else
    let fid := h.fileId.getD ("")
    let pid := d.newIds.headD ("")
    ⟨.ok h, c,
      { d with perms := d.perms ++ [(fid, ⟨pid, "anyone", role, none⟩)],
               newIds := d.newIds.tail },
      [.permsCreate fid ("anyone") role none none]⟩

/-- `list_permissions()`: fileId precondition; one
`permissions().list`, returning the object's permission entries. -/
def listPermissionsOp (h : Handle) (d : DriveSt) :
    Except Err (List Permission) × List RemoteCall :=
  if !truthy h.fileId then (.error (.valueError noFileIdMsg), [])
  else (.ok (permsOf d (h.fileId.getD (""))), [.permsList (h.fileId.getD (""))])

/-- `remove_permission(email_address)`: fileId precondition; lists the
permissions, deletes the first one whose `emailAddress` equals the
argument, else raises `ValueError("No permission found for ...")` with
no delete call issued. -/
def removePermissionOp (h : Handle) (c : Cache) (d : DriveSt) (email : String) : OpOut :=
  if !truthy h.fileId then ⟨.error (.valueError noFileIdMsg), c, d, []⟩
  else
    let fid := h.fileId.getD ("")
    let t1 : List RemoteCall := [.permsList fid]
    match (permsOf d fid).find? (fun p => p.emailAddress == some email) with
    | some p =>
        ⟨.ok h, c,
          { d with perms := d.perms.filter (fun q => !(q.1 == fid && q.2.id == p.id)) },
          t1 ++ [.permsDelete fid p.id]⟩
    | none =>
        ⟨.error (.valueError ("No permission found for " ++ email)), c, d, t1⟩

/-! ### Sample values used by witnesses and counterexamples -/

/-- A handle constructed with no identifiers at all. -/
def hNoId : Handle := mkHandle none none none none

/-- A handle constructed with `file_id='a1'`. -/
def hA : Handle := mkHandle (some ("a1")) none none none

/-- A plain remote text file. -/
def fA : DriveFile :=
  ⟨"doc.txt", "text/plain", ["root"], false, some ("12"), some ("t0"), some ("t1")⟩

/-- A remote state holding just `fA` under id `a1`. -/
def dA : DriveSt := ⟨[(("a1"), fA)], [], [("n1"), ("n2")], [⟨some ("7"), some ("text/plain"), some ("t2"), some ("t3")⟩], []⟩

/-- The empty remote state. -/
def d0 : DriveSt := ⟨[], [], [], [], []⟩

/-- An empty cache. -/
def c0 : Cache := (0, none)

/-! ### Claims -/

/-- C10: the cache identity is `"driverator_"` followed by, in fixed
precedence, the (truthy) file name, else the (truthy) file id, else the
literal `"file"`; hence two handles constructed with the same non-empty
file name share one cache id regardless of their file ids. -/
theorem mkCacheId_precedence (n : String) (hn : n ≠ "") (fid fid' : Option String) :
    mkCacheId (some n) fid = "driverator_" ++ n
  ∧ mkCacheId (some n) fid = mkCacheId (some n) fid'
  ∧ (∀ i : String, i ≠ "" → mkCacheId none (some i) = "driverator_" ++ i)
  ∧ mkCacheId none none = "driverator_file" := by
  have hne : (String.isEmpty n) = false := by
    cases he : n.isEmpty
    · rfl
    · exact absurd ((String.isEmpty_iff n).mp he) hn
  refine ⟨?_, ?_, ?_, rfl⟩
  · simp [mkCacheId, truthy, hne]
  · simp [mkCacheId, truthy, hne]
  · intro i hi
    have hie : (String.isEmpty i) = false := by
      cases he : i.isEmpty
      · rfl
      · exact absurd ((String.isEmpty_iff i).mp he) hi
    simp [mkCacheId, truthy, hie]

theorem mkCacheId_precedence_witness :
    (("report") ≠ "")
  ∧ mkCacheId (some ("report")) (some ("a1")) = mkCacheId (some ("report")) (some ("zz")) := by
  refine ⟨by decide, ?_⟩
  exact (mkCacheId_precedence ("report") (by decide) (some ("a1")) (some ("zz"))).2.1

/-- C1: on a handle with no (truthy) `file_id`, each of `update`,
`download`, `rename`, `move`, `delete`, `share`, `set_anyone_access`,
`list_permissions` and `remove_permission` raises the precondition
`ValueError` immediately, with an empty remote-call trace and cache and
remote state untouched. -/
theorem precondition_no_remote (h : Handle) (c : Cache) (d : DriveSt)
    (p nm em role : String) (fi fn : Option String) (perm : Bool) (ems : Emails)
    (hf : truthy h.fileId = false) :
    updateOp h c d p = ⟨.error (.valueError noFileIdMsg), c, d, []⟩
  ∧ downloadOp h c d p = ⟨.error (.valueError noFileIdMsg), c, d, []⟩
  ∧ renameOp h c d nm = ⟨.error (.valueError noFileIdMsg), c, d, []⟩
  ∧ moveOp h c d fi fn = ⟨.error (.valueError noFileIdMsg), c, d, []⟩
  ∧ deleteOp h c d perm = ⟨.error (.valueError noFileIdMsg), c, d, []⟩
  ∧ shareOp h c d ems role = ⟨.error (.valueError noFileIdMsg), c, d, []⟩
  ∧ setAnyoneAccessOp h c d role = ⟨.error (.valueError noFileIdMsg), c, d, []⟩
  ∧ listPermissionsOp h d = (.error (.valueError noFileIdMsg), [])
  ∧ removePermissionOp h c d em = ⟨.error (.valueError noFileIdMsg), c, d, []⟩ := by
  refine ⟨?_, ?_, ?_, ?_, ?_, ?_, ?_, ?_, ?_⟩
  · simp [updateOp, hf]
  · simp [downloadOp, hf]
  · simp [renameOp, hf]
  · simp [moveOp, hf]
  · simp [deleteOp, hf]
  · simp [shareOp, hf]
  · simp [setAnyoneAccessOp, hf]
  · simp [listPermissionsOp, hf]
  · simp [removePermissionOp, hf]

theorem precondition_no_remote_witness :
    truthy hNoId.fileId = false
  ∧ deleteOp hNoId c0 d0 true = ⟨.error (.valueError noFileIdMsg), c0, d0, []⟩ :=
  ⟨rfl, (precondition_no_remote hNoId c0 d0 ("f") ("n") ("e") ("r") none none true
    (.one ("e")) rfl).2.2.2.2.1⟩

/-- C5: `exists()` returns false with no remote call when `file_id` is
falsy; otherwise it issues exactly one minimal `files().get` and
returns true iff that fetch does not fail, the object is present, and
it is not trashed — it never raises (it is a total boolean function,
the source's bare `except` swallowing every fetch failure). -/
theorem existsOp_spec (h : Handle) (d : DriveSt) :
    (truthy h.fileId = false → existsOp h d = (false, []))
  ∧ (∀ fid : String, h.fileId = some fid → truthy h.fileId = true →
      (existsOp h d).2 = [.filesGet fid ("id, trashed")]
    ∧ ((existsOp h d).1 = true ↔
        (fid ∉ d.faulty ∧ ∃ f, lookupFile d fid = some f ∧ f.trashed = false))) := by
  constructor
  · intro hf
    simp [existsOp, hf]
  · intro fid hfid ht
    rw [hfid] at ht
    constructor
    · by_cases hfa : fid ∈ d.faulty
      · simp [existsOp, hfid, ht, hfa]
      · cases hlk : lookupFile d fid with
        | none => simp [existsOp, hfid, ht, hfa, hlk]
        | some f => simp [existsOp, hfid, ht, hfa, hlk]
    · by_cases hfa : fid ∈ d.faulty
      · constructor
        · intro htrue
          exfalso
          simp [existsOp, hfid, ht, hfa] at htrue
        · rintro ⟨hfa', -⟩
          exact absurd hfa hfa'
      · cases hlk : lookupFile d fid with
        | none =>
          constructor
          · intro htrue
            exfalso
            simp [existsOp, hfid, ht, hfa, hlk] at htrue
          · rintro ⟨-, f, hl, -⟩
            cases hl
        | some f =>
          constructor
          · intro htrue
            have hnt : (!f.trashed) = true := by
              simpa [existsOp, hfid, ht, hfa, hlk] using htrue
            exact ⟨hfa, f, rfl, by simpa using hnt⟩
          · rintro ⟨-, g, hl, htr⟩
            injection hl with hg
            subst hg
            simp [existsOp, hfid, ht, hfa, hlk, htr]

theorem existsOp_spec_witness :
    existsOp hNoId d0 = (false, [])
  ∧ (existsOp hA dA).1 = true := by
  constructor
  · exact (existsOp_spec hNoId d0).1 rfl
  · exact ((existsOp_spec hA dA).2 ("a1") rfl (by decide)).2.mpr
      ⟨by decide, fA, rfl, rfl⟩

/-- Trace of the `share` loop: one `permissions().create` per email, in
input order, appended to the accumulator. -/
theorem shareFold_calls (fid role : String) (l : List String)
    (acc : DriveSt × List RemoteCall) :
    (l.foldl (shareStep fid role) acc).2 =
      acc.2 ++ l.map (fun e =>
        RemoteCall.permsCreate fid ("user") role (some e) (some false)) := by
  induction l generalizing acc with
  | nil => simp
  | cons a tl ih =>
      rw [List.foldl_cons, ih]
      simp [shareStep]

/-- C9: `share` with a single string behaves identically to `share`
with the one-element list of that string; and for any email list it
succeeds leaving the handle unchanged and issues exactly one
permission-create per email, in order, with type `user`, the given
role, and notification suppressed. -/
theorem share_spec (h : Handle) (c : Cache) (d : DriveSt) (email role : String) :
    shareOp h c d (.one email) role = shareOp h c d (.many [email]) role
  ∧ (∀ fid : String, h.fileId = some fid → truthy h.fileId = true →
      ∀ emails : List String,
        (shareOp h c d (.many emails) role).res = .ok h
      ∧ (shareOp h c d (.many emails) role).calls =
          emails.map (fun e =>
            RemoteCall.permsCreate fid ("user") role (some e) (some false))) := by
  constructor
  · rfl
  · intro fid hfid ht emails
    rw [hfid] at ht
    constructor
    · simp [shareOp, hfid, ht]
    · simp only [shareOp, hfid, ht, Bool.not_true, Bool.false_eq_true, if_false,
        Option.getD_some]
      simpa using shareFold_calls fid role emails (d, [])

theorem share_spec_witness :
    shareOp hA c0 dA (.one ("x@y.z")) ("reader") =
      shareOp hA c0 dA (.many [("x@y.z")]) ("reader")
  ∧ (shareOp hA c0 dA (.many [("x@y.z"), ("u@v.w")]) ("reader")).calls =
      [.permsCreate ("a1") ("user") ("reader") (some ("x@y.z")) (some false),
       .permsCreate ("a1") ("user") ("reader") (some ("u@v.w")) (some false)] := by
  refine ⟨(share_spec hA c0 dA ("x@y.z") ("reader")).1, ?_⟩
  have hw := ((share_spec hA c0 dA ("x@y.z") ("reader")).2 ("a1") rfl (by decide)
      [("x@y.z"), ("u@v.w")]).2
  simpa using hw

/-- C4 (amended): the cache entry is rewritten (save counter bumped,
entry mirroring the new handle) after every successful operation that
changes local fields — `upload`, `update`, `rename`, `move` — while
`delete`, `share`, `set_anyone_access` and `remove_permission` change
no local field and leave the cache untouched. -/
theorem cache_save_policy (h : Handle) (c : Cache) (d : DriveSt)
    (p nm em role : String) (fi fn : Option String) (perm : Bool) (ems : Emails) :
    (∀ h', (uploadOp h c d p).res = .ok h' →
      (uploadOp h c d p).cache = (c.1 + 1, some h'))
  ∧ (∀ h', (updateOp h c d p).res = .ok h' →
      (updateOp h c d p).cache = (c.1 + 1, some h'))
  ∧ (∀ h', (renameOp h c d nm).res = .ok h' →
      (renameOp h c d nm).cache = (c.1 + 1, some h'))
  ∧ (∀ h', (moveOp h c d fi fn).res = .ok h' →
      (moveOp h c d fi fn).cache = (c.1 + 1, some h'))
  ∧ (∀ h', (deleteOp h c d perm).res = .ok h' →
      h' = h ∧ (deleteOp h c d perm).cache = c)
  ∧ (∀ h', (shareOp h c d ems role).res = .ok h' →
      h' = h ∧ (shareOp h c d ems role).cache = c)
  ∧ (∀ h', (setAnyoneAccessOp h c d role).res = .ok h' →
      h' = h ∧ (setAnyoneAccessOp h c d role).cache = c)
  ∧ (∀ h', (removePermissionOp h c d em).res = .ok h' →
      h' = h ∧ (removePermissionOp h c d em).cache = c) := by
  refine ⟨?_, ?_, ?_, ?_, ?_, ?_, ?_, ?_⟩
  · intro h' hok
    simp only [uploadOp, Except.ok.injEq] at hok
    subst hok
    simp [uploadOp, jsonCacheSave]
  · intro h' hok
    by_cases hg : truthy h.fileId = true
    · cases hlk : lookupFile d (h.fileId.getD ("")) with
      | none => simp [updateOp, hg, hlk] at hok
      | some f =>
          simp [updateOp, hg, hlk, jsonCacheSave] at hok ⊢
          simp_all
    · have hg' : truthy h.fileId = false := by simpa using hg
      simp [updateOp, hg'] at hok
  · intro h' hok
    by_cases hg : truthy h.fileId = true
    · cases hlk : lookupFile d (h.fileId.getD ("")) with
      | none => simp [renameOp, hg, hlk] at hok
      | some f =>
          simp [renameOp, hg, hlk, jsonCacheSave] at hok ⊢
          simp_all
    · have hg' : truthy h.fileId = false := by simpa using hg
      simp [renameOp, hg'] at hok
  · intro h' hok
    by_cases hg : truthy h.fileId = true
    · by_cases htg : truthy (moveResolveTarget h d fi fn).1 = true
      · by_cases hfa :
            h.fileId.getD ("") ∈ (moveResolveTarget h d fi fn).2.1.faulty
        · simp [moveOp, hg, htg, hfa] at hok
        · cases hlk : lookupFile (moveResolveTarget h d fi fn).2.1 (h.fileId.getD ("")) with
          | none => simp [moveOp, hg, htg, hfa, hlk] at hok
          | some f =>
              simp [moveOp, hg, htg, hfa, hlk, jsonCacheSave] at hok ⊢
              simp_all
      · have htg' : truthy (moveResolveTarget h d fi fn).1 = false := by simpa using htg
        simp [moveOp, hg, htg'] at hok
    · have hg' : truthy h.fileId = false := by simpa using hg
      simp [moveOp, hg'] at hok
  · intro h' hok
    by_cases hg : truthy h.fileId = true
    · cases hp : perm with
      | true =>
          cases hlk : lookupFile d (h.fileId.getD ("")) with
          | none => simp [deleteOp, hg, hp, hlk] at hok
          | some f =>
              simp [deleteOp, hg, hp, hlk] at hok ⊢
              simp_all
      | false =>
          cases hlk : lookupFile d (h.fileId.getD ("")) with
          | none => simp [deleteOp, hg, hp, hlk] at hok
          | some f =>
              simp [deleteOp, hg, hp, hlk] at hok ⊢
              simp_all
    · have hg' : truthy h.fileId = false := by simpa using hg
      simp [deleteOp, hg'] at hok
  · intro h' hok
    by_cases hg : truthy h.fileId = true
    · simp [shareOp, hg] at hok ⊢
      simp_all
    · have hg' : truthy h.fileId = false := by simpa using hg
      simp [shareOp, hg'] at hok
  · intro h' hok
    by_cases hg : truthy h.fileId = true
    · simp [setAnyoneAccessOp, hg] at hok ⊢
      simp_all
    · have hg' : truthy h.fileId = false := by simpa using hg
      simp [setAnyoneAccessOp, hg'] at hok
  · intro h' hok
    by_cases hg : truthy h.fileId = true
    · cases hfind : (permsOf d (h.fileId.getD (""))).find?
          (fun q => q.emailAddress == some em) with
      | none => simp [removePermissionOp, hg, hfind] at hok
      | some pm =>
          simp [removePermissionOp, hg, hfind] at hok ⊢
          simp_all
    · have hg' : truthy h.fileId = false := by simpa using hg
      simp [removePermissionOp, hg'] at hok

theorem cache_save_policy_witness :
    (renameOp hA c0 dA ("new.txt")).res =
      .ok ({ hA with fileName := some ("new.txt") })
  ∧ (renameOp hA c0 dA ("new.txt")).cache =
      (1, some ({ hA with fileName := some ("new.txt") })) := by
  refine ⟨by decide, ?_⟩
  exact (cache_save_policy hA c0 dA ("p") ("new.txt") ("e") ("r") none none true
    (.one ("e"))).2.2.1 ({ hA with fileName := some ("new.txt") }) (by decide)

/-- C4 counterexample: a soft `delete` on an existing file succeeds,
yet the cache is not rewritten (save counter still zero, entry still
empty) — the claim that every mutating operation rewrites the cache
fails for `delete` (and likewise `share`, `set_anyone_access`,
`remove_permission`, none of which call `json_cache_save`). -/
theorem cache_save_cex :
    (deleteOp hA c0 dA false).res = .ok hA
  ∧ (deleteOp hA c0 dA false).cache = (0, none) := by
  constructor
  · decide
  · decide

/-- A permission entry for `bob@x.y` on file `a1`. -/
def permBob : Permission := ⟨"p1", "user", "reader", some ("bob@x.y")⟩

/-- A remote state with file `a1` carrying one permission. -/
def dP : DriveSt := ⟨[(("a1"), fA)], [(("a1"), permBob)], [], [], []⟩

/-- C8: `remove_permission(email)` on a handle with a (truthy) file id
first lists the object's permissions; if no entry matches the email it
raises the "No permission found" `ValueError`, leaving the remote state
(hence the permission list) unchanged and issuing no delete call; if an
entry matches, it deletes exactly that entry. -/
theorem removePermission_spec (h : Handle) (c : Cache) (d : DriveSt)
    (email fid : String) (hfid : h.fileId = some fid) (ht : truthy h.fileId = true) :
    ((permsOf d fid).find? (fun q => q.emailAddress == some email) = none →
      removePermissionOp h c d email =
        ⟨.error (.valueError ("No permission found for " ++ email)), c, d,
         [.permsList fid]⟩)
  ∧ (∀ pm, (permsOf d fid).find? (fun q => q.emailAddress == some email) = some pm →
      removePermissionOp h c d email =
        ⟨.ok h, c,
         { d with perms := d.perms.filter (fun q => !(q.1 == fid && q.2.id == pm.id)) },
         [.permsList fid, .permsDelete fid pm.id]⟩) := by
  rw [hfid] at ht
  constructor
  · intro hnone
    simp [removePermissionOp, hfid, ht, hnone]
  · intro pm hfind
    simp [removePermissionOp, hfid, ht, hfind]

theorem removePermission_spec_witness :
    removePermissionOp hA c0 dP ("z@z.z") =
      ⟨.error (.valueError ("No permission found for " ++ ("z@z.z"))), c0, dP,
       [.permsList ("a1")]⟩
  ∧ removePermissionOp hA c0 dP ("bob@x.y") =
      ⟨.ok hA, c0, ⟨[(("a1"), fA)], [], [], [], []⟩,
       [.permsList ("a1"), .permsDelete ("a1") ("p1")]⟩ := by
  constructor
  · exact (removePermission_spec hA c0 dP ("z@z.z") ("a1") rfl (by decide)).1 (by decide)
  · have hw := (removePermission_spec hA c0 dP ("bob@x.y") ("a1") rfl (by decide)).2
      permBob (by decide)
    simpa using hw

/-- C6: `upload` always issues a single `files().create` (never an
update), named by the explicit file name when truthy and otherwise by
the local path's base name; the provider stores a new object under the
fresh id; the handle's `file_id` and every metadata field are replaced
from the response and the cache is rewritten; and when a `file_id` was
already set and denotes an existing remote object, that object is
distinct from the new one and untouched — a second remote object. -/
theorem upload_spec (h : Handle) (c : Cache) (d : DriveSt) (p : String)
    (newId : String) (rest : List String)
    (hn : d.newIds = newId :: rest)
    (hfresh : ∀ pr ∈ d.files, pr.1 ≠ newId) :
    (uploadOp h c d p).calls =
      [.filesCreate (if truthy h.fileName then h.fileName.getD ("") else baseName p)
        none (if truthy h.folderId then [h.folderId.getD ("")] else []) true]
  ∧ (∃ f, lookupFile (uploadOp h c d p).drive newId = some f
        ∧ f.name = (if truthy h.fileName then h.fileName.getD ("") else baseName p))
  ∧ (∃ h', (uploadOp h c d p).res = .ok h'
        ∧ h'.fileId = some newId
        ∧ h'.fileName = some (if truthy h.fileName then h.fileName.getD ("") else baseName p)
        ∧ h'.size = (d.uploadInfo.headD ⟨none, none, none, none⟩).size
        ∧ h'.mimeType = (d.uploadInfo.headD ⟨none, none, none, none⟩).mimeType
        ∧ h'.createdTime = (d.uploadInfo.headD ⟨none, none, none, none⟩).createdTime
        ∧ h'.modifiedTime = (d.uploadInfo.headD ⟨none, none, none, none⟩).modifiedTime
        ∧ h'.urlF = some (viewUrl newId)
        ∧ h'.downloadUrlF = some (downloadUrlOf newId)
        ∧ (uploadOp h c d p).cache = (c.1 + 1, some h'))
  ∧ (∀ oldId fOld, h.fileId = some oldId → lookupFile d oldId = some fOld →
        oldId ≠ newId ∧ lookupFile (uploadOp h c d p).drive oldId = some fOld) := by
  have hhead : d.newIds.head?.getD ("") = newId := by rw [hn]; rfl
  have hfn : d.files.find? (fun q => q.1 == newId) = none := by
    rw [List.find?_eq_none]
    intro x hx
    simp [hfresh x hx]
  refine ⟨?_, ?_, ?_, ?_⟩
  · simp [uploadOp]
  · have key : lookupFile (uploadOp h c d p).drive newId = some
        (⟨(if truthy h.fileName then h.fileName.getD ("") else baseName p),
          (d.uploadInfo.headD ⟨none, none, none, none⟩).mimeType.getD (""),
          (if truthy h.folderId then [h.folderId.getD ("")] else []), false,
          (d.uploadInfo.headD ⟨none, none, none, none⟩).size,
          (d.uploadInfo.headD ⟨none, none, none, none⟩).createdTime,
          (d.uploadInfo.headD ⟨none, none, none, none⟩).modifiedTime⟩ : DriveFile) := by
      simp only [uploadOp, lookupFile, List.headD_eq_head?_getD, hhead]
      rw [List.find?_append, hfn]
      simp
    exact ⟨_, key, rfl⟩
  · refine ⟨_, rfl, ?_, rfl, rfl, rfl, rfl, rfl, ?_, ?_, ?_⟩
    · simp [hn]
    · simp [hn]
    · simp [hn]
    · simp [uploadOp, jsonCacheSave]
  · intro oldId fOld hold hlkOld
    have hpair : ∃ pr, d.files.find? (fun q => q.1 == oldId) = some pr ∧ pr.2 = fOld := by
      unfold lookupFile at hlkOld
      cases hf : d.files.find? (fun q => q.1 == oldId) with
      | none => rw [hf] at hlkOld; cases hlkOld
      | some pr => rw [hf] at hlkOld; exact ⟨pr, rfl, by simpa using hlkOld⟩
    obtain ⟨pr, hpr, hpr2⟩ := hpair
    have hmem := List.mem_of_find?_eq_some hpr
    have hkey : pr.1 = oldId := by
      have hb := List.find?_some hpr
      simpa using hb
    constructor
    · intro heq
      exact hfresh pr hmem (by rw [hkey, heq])
    · simp only [uploadOp, lookupFile]
      rw [List.find?_append, hpr]
      simp [hpr2]

theorem upload_spec_witness :
    ("a1") ≠ ("n1")
  ∧ lookupFile (uploadOp hA c0 dA ("dir/doc2.txt")).drive ("a1") = some fA := by
  exact (upload_spec hA c0 dA ("dir/doc2.txt") ("n1") [("n2")] rfl
    (by decide)).2.2.2 ("a1") fA rfl (by decide)

/-- A non-empty string is Python-truthy. -/
theorem truthy_some_of_ne (s : String) (hs : s ≠ "") : truthy (some s) = true := by
  simp only [truthy, Bool.not_eq_true']
  cases he : s.isEmpty
  · rfl
  · exact absurd ((String.isEmpty_iff s).mp he) hs

/-- `find?` by key commutes with a key-preserving entry rewrite. -/
theorem find?_map_keyfun (l : List (String × DriveFile)) (fid : String)
    (g : String × DriveFile → String × DriveFile)
    (hg : ∀ pr, (g pr).1 = pr.1) :
    (l.map g).find? (fun q => q.1 == fid) =
      (l.find? (fun q => q.1 == fid)).map g := by
  induction l with
  | nil => rfl
  | cons a t ih =>
      by_cases hk : (a.1 == fid) = true
      · have e1 : List.find? (fun q => q.1 == fid) (g a :: List.map g t) = some (g a) :=
          List.find?_cons_of_pos _ (by rw [hg a]; exact hk)
        have e2 : List.find? (fun q => q.1 == fid) (a :: t) = some a :=
          List.find?_cons_of_pos _ hk
        rw [List.map_cons, e1, e2]
        rfl
      · have e1 : List.find? (fun q => q.1 == fid) (g a :: List.map g t) =
            List.find? (fun q => q.1 == fid) (List.map g t) :=
          List.find?_cons_of_neg _ (by rw [hg a]; exact hk)
        have e2 : List.find? (fun q => q.1 == fid) (a :: t) =
            List.find? (fun q => q.1 == fid) t :=
          List.find?_cons_of_neg _ hk
        rw [List.map_cons, e1, e2, ih]

/-- C3: `move` with a (truthy) file id: (i) with neither target-folder
identifier it raises the precondition `ValueError` before any remote
call; (ii) with only a folder name the target is resolved find-or-create
(`_find_folder_by_name`, then `_create_folder` when absent — the same
find-then-create-if-absent policy `initialize` uses, cf.
`initOp_spec`); (iii) on the success path it issues the parents
`files().get` followed by one `files().update` whose `addParents` is
the single target and whose `removeParents` is the whole previous
parent set, after which the object's parents are exactly the target,
and the handle's folder fields are updated. -/
theorem move_spec (h : Handle) (c : Cache) (d : DriveSt) (fi fn : Option String)
    (fid : String) (hfid : h.fileId = some fid) (ht : truthy h.fileId = true) :
    (truthy fi = false → truthy fn = false →
      moveOp h c d fi fn = ⟨.error (.valueError moveMsg), c, d, []⟩)
  ∧ (∀ nm : String, fn = some nm → truthy fn = true → truthy fi = false →
      ((∀ i, i ≠ "" →
          (filesListIds d ⟨nm, true, if truthy h.folderId then h.folderId else none⟩).head?
            = some i →
          moveResolveTarget h d fi fn =
            (some i, d,
             [.filesList ⟨nm, true, if truthy h.folderId then h.folderId else none⟩]))
       ∧ ((filesListIds d ⟨nm, true, if truthy h.folderId then h.folderId else none⟩).head?
            = none →
          moveResolveTarget h d fi fn =
            (some (d.newIds.headD ("")),
             { d with
                files := d.files ++ [(d.newIds.headD (""), ⟨nm, folderMime, (if truthy h.folderId then [h.folderId.getD ("")] else []), false, none, none, none⟩)],
                newIds := d.newIds.tail },
             [.filesList ⟨nm, true, if truthy h.folderId then h.folderId else none⟩,
              .filesCreate nm (some folderMime) (if truthy h.folderId then [h.folderId.getD ("")] else []) false]))))
  ∧ (∀ tgt d1 t1, moveResolveTarget h d fi fn = (some tgt, d1, t1) → tgt ≠ "" →
      fid ∉ d1.faulty → ∀ f, lookupFile d1 fid = some f →
        (moveOp h c d fi fn).calls =
          t1 ++ [.filesGet fid ("parents"),
                 .filesUpdate fid none none (some tgt) (some f.parents) false]
      ∧ (∃ f', lookupFile (moveOp h c d fi fn).drive fid = some f'
             ∧ f'.parents = [tgt])
      ∧ (moveOp h c d fi fn).res =
          .ok { h with folderId := some tgt,
                       folderName := if truthy fn then fn else h.folderName }) := by
  refine ⟨?_, ?_, ?_⟩
  · intro hfi hfn
    simp [moveOp, moveResolveTarget, ht, hfi, hfn]
  · intro nm hnm htfn htfi
    subst hnm
    constructor
    · intro i hine hhead
      have hti := truthy_some_of_ne i hine
      have htn : truthy none = false := rfl
      simp [moveResolveTarget, findFolderByName, htn, htfn, htfi, hhead, hti]
    · intro hhead
      have htn : truthy none = false := rfl
      simp [moveResolveTarget, findFolderByName, createFolder, htn, htfn, htfi, hhead]
  · intro tgt d1 t1 hres htgt hfa f hlk
    have httgt := truthy_some_of_ne tgt htgt
    have ht2 : truthy (some fid) = true := hfid ▸ ht
    have hcon : d1.faulty.contains fid = false := by simpa using hfa
    have hg : ∀ pr : String × DriveFile,
        ((fun p => if p.1 == fid then
            (p.1, { p.2 with parents :=
              (p.2.parents.filter (fun q => !f.parents.contains q)) ++ [tgt] })
          else p) pr).1 = pr.1 := by
      intro pr
      by_cases hc : (pr.1 == fid) = true
      · simp [hc]
      · simp [hc]
    have hred : moveOp h c d fi fn =
        ⟨.ok { h with folderId := some tgt, folderName := if truthy fn then fn else h.folderName },
         jsonCacheSave { h with folderId := some tgt, folderName := if truthy fn then fn else h.folderName } c,
         { d1 with files := d1.files.map (fun p => if p.1 == fid then (p.1, { p.2 with parents := (p.2.parents.filter (fun q => !f.parents.contains q)) ++ [tgt] }) else p) },
         t1 ++ [.filesGet fid ("parents"),
                .filesUpdate fid none none (some tgt) (some f.parents) false]⟩ := by
      simp [moveOp, hfid, hres, ht2, httgt, hcon, hfa, hlk]
    refine ⟨?_, ?_, ?_⟩
    · rw [hred]
    · have hpair : ∃ pr, d1.files.find? (fun q => q.1 == fid) = some pr ∧ pr.2 = f := by
        unfold lookupFile at hlk
        cases hf : d1.files.find? (fun q => q.1 == fid) with
        | none => rw [hf] at hlk; cases hlk
        | some pr => rw [hf] at hlk; exact ⟨pr, rfl, by simpa using hlk⟩
      obtain ⟨pr, hpr, hpr2⟩ := hpair
      have hkey : (pr.1 == fid) = true :=
        @List.find?_some _ (fun q => q.1 == fid) pr d1.files hpr
      have hkeep : f.parents.filter (fun q => !f.parents.contains q) = [] := by
        rw [List.filter_eq_nil_iff]
        intro a ha
        simp [ha]
      refine ⟨{ f with parents := [tgt] }, ?_, rfl⟩
      rw [hred]
      simp only [lookupFile]
      rw [find?_map_keyfun _ fid _ hg, hpr]
      simp only [Option.map_some', hkey, if_pos rfl, hpr2, hkeep]
      simp
    · rw [hred]

theorem move_spec_witness :
    (moveOp hA c0 d0 none none : OpOut) =
      ⟨.error (.valueError moveMsg), c0, d0, []⟩
  ∧ (∃ f', lookupFile (moveOp hA c0 dA (some ("F9")) none).drive ("a1") = some f'
       ∧ f'.parents = [("F9")]) := by
  constructor
  · exact (move_spec hA c0 d0 none none ("a1") rfl (by decide)).1 rfl rfl
  · exact ((move_spec hA c0 dA (some ("F9")) none ("a1") rfl (by decide)).2.2
      ("F9") dA [] rfl (by decide) (by decide) fA rfl).2.1

/-- C7: `initialize()` — (a) with a truthy folder name and no truthy
folder id, the folder is resolved by `_find_folder_by_name` and, only
when absent, created by `_create_folder` with the returned id adopted
(otherwise the folder step is a no-op); (b) with a truthy file name and
no truthy file id, the file id adopted is the first match of
`_find_file_by_name` scoped to the resolved folder id when truthy, and
no match simply leaves `file_id` unset; (c) the operation never errors
on a missing file, and metadata is loaded and the cache written exactly
when the final `file_id` is truthy and the remote object exists
untrashed. -/
theorem initOp_spec (h : Handle) (c : Cache) (d : DriveSt) :
    (truthy h.folderName = true → truthy h.folderId = false →
      ((∀ i, i ≠ "" →
          (filesListIds d ⟨h.folderName.getD (""), true, none⟩).head? = some i →
          initFolderStep h d =
            ({ h with folderId := some i }, d,
             [.filesList ⟨h.folderName.getD (""), true, none⟩]))
       ∧ ((filesListIds d ⟨h.folderName.getD (""), true, none⟩).head? = none →
          initFolderStep h d =
            ({ h with folderId := some (d.newIds.headD ("")) },
             { d with
                files := d.files ++ [(d.newIds.headD (""), ⟨h.folderName.getD (""), folderMime, [], false, none, none, none⟩)],
                newIds := d.newIds.tail },
             [.filesList ⟨h.folderName.getD (""), true, none⟩,
              .filesCreate (h.folderName.getD ("")) (some folderMime) [] false]))))
  ∧ ((truthy h.folderName = false ∨ truthy h.folderId = true) →
      initFolderStep h d = (h, d, []))
  ∧ (∀ h1 : Handle, ∀ dd : DriveSt,
      (truthy h1.fileName = true → truthy h1.fileId = false →
        initFileStep h1 dd =
          ({ h1 with fileId := (filesListIds dd ⟨h1.fileName.getD (""), false, if truthy h1.folderId then h1.folderId else none⟩).head? },
           [.filesList ⟨h1.fileName.getD (""), false, if truthy h1.folderId then h1.folderId else none⟩]))
      ∧ ((truthy h1.fileName = false ∨ truthy h1.fileId = true) →
        initFileStep h1 dd = (h1, [])))
  ∧ (∀ h1 dd t1, initFolderStep h d = (h1, dd, t1) →
      ∀ h2 t2, initFileStep h1 dd = (h2, t2) →
        ((truthy h2.fileId = false →
            initOp h c d = ⟨.ok h2, c, dd, t1 ++ t2⟩)
         ∧ (truthy h2.fileId = true → (existsOp h2 dd).1 = false →
            initOp h c d = ⟨.ok h2, c, dd, t1 ++ t2 ++ (existsOp h2 dd).2⟩)
         ∧ (∀ fid f, h2.fileId = some fid → truthy h2.fileId = true →
              fid ∉ dd.faulty → lookupFile dd fid = some f → f.trashed = false →
              initOp h c d =
                ⟨.ok { h2 with fileName := some f.name, size := f.size, mimeType := some f.mimeType, createdTime := f.createdTime, modifiedTime := f.modifiedTime, urlF := some (viewUrl fid), downloadUrlF := some (downloadUrlOf fid) },
                 jsonCacheSave { h2 with fileName := some f.name, size := f.size, mimeType := some f.mimeType, createdTime := f.createdTime, modifiedTime := f.modifiedTime, urlF := some (viewUrl fid), downloadUrlF := some (downloadUrlOf fid) } c,
                 dd,
                 t1 ++ t2 ++ [.filesGet fid ("id, trashed"),
                   .filesGet fid ("id, name, mimeType, size, createdTime, modifiedTime")]⟩))) := by
  have htn : truthy none = false := rfl
  refine ⟨?_, ?_, ?_, ?_⟩
  · intro hfn hfi
    constructor
    · intro i hine hhead
      have hti := truthy_some_of_ne i hine
      simp [initFolderStep, findFolderByName, htn, hfn, hfi, hhead, hti]
    · intro hhead
      simp [initFolderStep, findFolderByName, createFolder, htn, hfn, hfi, hhead]
  · rintro (hfn | hfi)
    · simp [initFolderStep, hfn]
    · simp [initFolderStep, hfi]
  · intro h1 dd
    constructor
    · intro hfn hfi
      simp [initFileStep, findFileByName, hfn, hfi]
    · rintro (hfn | hfi)
      · simp [initFileStep, hfn]
      · simp [initFileStep, hfi]
  · intro h1 dd t1 hstep1 h2 t2 hstep2
    refine ⟨?_, ?_, ?_⟩
    · intro hf2
      simp [initOp, hstep1, hstep2, hf2]
    · intro ht2 hex
      simp [initOp, hstep1, hstep2, ht2, hex]
    · intro fid f hfid2 ht2 hnf hlk htr
      have ht2' : truthy (some fid) = true := hfid2 ▸ ht2
      have hex : existsOp h2 dd = (true, [.filesGet fid ("id, trashed")]) := by
        simp [existsOp, hfid2, ht2', hnf, hlk, htr]
      have hlm : loadMetadata h2 c dd =
          (.ok { h2 with fileName := some f.name, size := f.size, mimeType := some f.mimeType, createdTime := f.createdTime, modifiedTime := f.modifiedTime, urlF := some (viewUrl fid), downloadUrlF := some (downloadUrlOf fid) },
           jsonCacheSave { h2 with fileName := some f.name, size := f.size, mimeType := some f.mimeType, createdTime := f.createdTime, modifiedTime := f.modifiedTime, urlF := some (viewUrl fid), downloadUrlF := some (downloadUrlOf fid) } c,
           [.filesGet fid ("id, name, mimeType, size, createdTime, modifiedTime")]) := by
        simp [loadMetadata, hfid2, hnf, hlk]
      simp [initOp, hstep1, hstep2, ht2, hex, hlm]

/-- A handle constructed with a file name and a folder name only. -/
def hInit : Handle := mkHandle none (some ("doc.txt")) none (some ("MyFolder"))

/-- A remote folder named `MyFolder`. -/
def folderF : DriveFile := ⟨"MyFolder", folderMime, [], false, none, none, none⟩

/-- A remote file named `doc.txt` inside `fo1`. -/
def fDoc : DriveFile :=
  ⟨"doc.txt", "text/plain", ["fo1"], false, some ("12"), some ("t0"), some ("t1")⟩

/-- Remote state for the `initialize` witness. -/
def dInit : DriveSt := ⟨[(("fo1"), folderF), (("a1"), fDoc)], [], [], [], []⟩

/-- `hInit` after folder resolution. -/
def h1c : Handle := { hInit with folderId := some ("fo1") }

/-- `h1c` after file resolution. -/
def h2c : Handle := { h1c with fileId := some ("a1") }

/-- `h2c` after the metadata load. -/
def hLc : Handle := { h2c with fileName := some ("doc.txt"), size := some ("12"), mimeType := some ("text/plain"), createdTime := some ("t0"), modifiedTime := some ("t1"), urlF := some (viewUrl ("a1")), downloadUrlF := some (downloadUrlOf ("a1")) }

theorem initOp_spec_witness :
    (initOp hInit c0 dInit).res = .ok hLc
  ∧ (initOp hInit c0 dInit).cache = (1, some hLc) := by
  have hw := ((initOp_spec hInit c0 dInit).2.2.2 h1c dInit
      [.filesList ⟨("MyFolder"), true, none⟩] (by decide) h2c
      [.filesList ⟨("doc.txt"), false, some ("fo1")⟩] (by decide)).2.2
      ("a1") fDoc rfl (by decide) (by decide) rfl rfl
  rw [hw]
  exact ⟨by decide, by decide⟩

/-- The lazily-cached URL attributes are either absent or consistent
with the current (truthy) `file_id`. -/
def UrlInv (h : Handle) : Prop :=
  (h.urlF = none ∨ (truthy h.fileId = true ∧ h.urlF = some (viewUrl (h.fileId.getD ("")))))
  ∧ (h.downloadUrlF = none ∨ (truthy h.fileId = true ∧ h.downloadUrlF = some (downloadUrlOf (h.fileId.getD ("")))))

theorem initFolderStep_fields (h : Handle) (d : DriveSt) :
    (initFolderStep h d).1.fileId = h.fileId
  ∧ (initFolderStep h d).1.urlF = h.urlF
  ∧ (initFolderStep h d).1.downloadUrlF = h.downloadUrlF := by
  unfold initFolderStep
  split
  · dsimp only
    split
    · simp
    · simp
  · simp

theorem initFileStep_urlInv (h1 : Handle) (dd : DriveSt) (hinv : UrlInv h1) :
    UrlInv (initFileStep h1 dd).1 := by
  unfold initFileStep
  split
  · rename_i hcond
    have hfi : truthy h1.fileId = false := by
      have hc2 := (Bool.and_eq_true _ _).mp hcond
      simpa using hc2.2
    have hu : h1.urlF = none := by
      rcases hinv.1 with hn | ⟨ht, -⟩
      · exact hn
      · rw [ht] at hfi
        cases hfi
    have hdl : h1.downloadUrlF = none := by
      rcases hinv.2 with hn | ⟨ht, -⟩
      · exact hn
      · rw [ht] at hfi
        cases hfi
    exact ⟨Or.inl (by simpa using hu), Or.inl (by simpa using hdl)⟩
  · exact hinv

theorem loadMetadata_urlInv (h2 : Handle) (c : Cache) (dd : DriveSt) (h' : Handle)
    (ht2 : truthy h2.fileId = true)
    (hok : (loadMetadata h2 c dd).1 = .ok h') : UrlInv h' := by
  by_cases hfa : h2.fileId.getD ("") ∈ dd.faulty
  · simp [loadMetadata, hfa] at hok
  · cases hlk : lookupFile dd (h2.fileId.getD ("")) with
    | none => simp [loadMetadata, hfa, hlk] at hok
    | some f =>
        simp [loadMetadata, hfa, hlk] at hok
        subst hok
        exact ⟨Or.inr ⟨ht2, rfl⟩, Or.inr ⟨ht2, rfl⟩⟩

theorem initOp_res_cases (h : Handle) (c : Cache) (d : DriveSt) :
    (initOp h c d).res = .ok (initFileStep (initFolderStep h d).1 (initFolderStep h d).2.1).1
  ∨ (truthy (initFileStep (initFolderStep h d).1 (initFolderStep h d).2.1).1.fileId = true
     ∧ (initOp h c d).res =
        (loadMetadata (initFileStep (initFolderStep h d).1 (initFolderStep h d).2.1).1 c
          (initFolderStep h d).2.1).1) := by
  simp only [initOp]
  split
  · rename_i ht2
    split
    · cases hlm : (loadMetadata (initFileStep (initFolderStep h d).1 (initFolderStep h d).2.1).1 c
          (initFolderStep h d).2.1).1 with
      | ok h3 => right; exact ⟨ht2, by simp [hlm]⟩
      | error e => right; exact ⟨ht2, by simp [hlm]⟩
    · left; rfl
  · left; rfl

theorem initOp_ok_urlInv (h : Handle) (c : Cache) (d : DriveSt) (h' : Handle)
    (hinv : UrlInv h) (hok : (initOp h c d).res = .ok h') : UrlInv h' := by
  have hf := initFolderStep_fields h d
  have hinv1 : UrlInv (initFolderStep h d).1 := by
    unfold UrlInv at hinv ⊢
    rw [hf.1, hf.2.1, hf.2.2]
    exact hinv
  have hinv2 : UrlInv (initFileStep (initFolderStep h d).1 (initFolderStep h d).2.1).1 :=
    initFileStep_urlInv _ _ hinv1
  rcases initOp_res_cases h c d with hres | ⟨ht2, hres⟩
  · rw [hres] at hok
    have : (initFileStep (initFolderStep h d).1 (initFolderStep h d).2.1).1 = h' := by
      simpa using hok
    rw [← this]
    exact hinv2
  · rw [hres] at hok
    exact loadMetadata_urlInv _ c _ h' ht2 hok

theorem updateOp_ok_fields (h : Handle) (c : Cache) (d : DriveSt) (p : String)
    (h' : Handle) (hok : (updateOp h c d p).res = .ok h') :
    h'.fileId = h.fileId ∧ h'.urlF = h.urlF ∧ h'.downloadUrlF = h.downloadUrlF := by
  by_cases hg : truthy h.fileId = true
  · cases hlk : lookupFile d (h.fileId.getD ("")) with
    | none => simp [updateOp, hg, hlk] at hok
    | some f =>
        simp [updateOp, hg, hlk] at hok
        subst hok
        exact ⟨rfl, rfl, rfl⟩
  · have hg' : truthy h.fileId = false := by simpa using hg
    simp [updateOp, hg'] at hok

theorem renameOp_ok_fields (h : Handle) (c : Cache) (d : DriveSt) (nm : String)
    (h' : Handle) (hok : (renameOp h c d nm).res = .ok h') :
    h'.fileId = h.fileId ∧ h'.urlF = h.urlF ∧ h'.downloadUrlF = h.downloadUrlF := by
  by_cases hg : truthy h.fileId = true
  · cases hlk : lookupFile d (h.fileId.getD ("")) with
    | none => simp [renameOp, hg, hlk] at hok
    | some f =>
        simp [renameOp, hg, hlk] at hok
        subst hok
        exact ⟨rfl, rfl, rfl⟩
  · have hg' : truthy h.fileId = false := by simpa using hg
    simp [renameOp, hg'] at hok

theorem moveOp_ok_fields (h : Handle) (c : Cache) (d : DriveSt) (fi fn : Option String)
    (h' : Handle) (hok : (moveOp h c d fi fn).res = .ok h') :
    h'.fileId = h.fileId ∧ h'.urlF = h.urlF ∧ h'.downloadUrlF = h.downloadUrlF := by
  by_cases hg : truthy h.fileId = true
  · by_cases htg : truthy (moveResolveTarget h d fi fn).1 = true
    · by_cases hfa : h.fileId.getD ("") ∈ (moveResolveTarget h d fi fn).2.1.faulty
      · simp [moveOp, hg, htg, hfa] at hok
      · cases hlk : lookupFile (moveResolveTarget h d fi fn).2.1 (h.fileId.getD ("")) with
        | none => simp [moveOp, hg, htg, hfa, hlk] at hok
        | some f =>
            simp [moveOp, hg, htg, hfa, hlk] at hok
            subst hok
            exact ⟨rfl, rfl, rfl⟩
    · have htg' : truthy (moveResolveTarget h d fi fn).1 = false := by simpa using htg
      simp [moveOp, hg, htg'] at hok
  · have hg' : truthy h.fileId = false := by simpa using hg
    simp [moveOp, hg'] at hok

theorem deleteOp_ok_same (h : Handle) (c : Cache) (d : DriveSt) (perm : Bool)
    (h' : Handle) (hok : (deleteOp h c d perm).res = .ok h') : h' = h := by
  by_cases hg : truthy h.fileId = true
  · cases hp : perm with
    | true =>
        cases hlk : lookupFile d (h.fileId.getD ("")) with
        | none => simp [deleteOp, hg, hp, hlk] at hok
        | some f =>
            simp [deleteOp, hg, hp, hlk] at hok
            exact hok.symm
    | false =>
        cases hlk : lookupFile d (h.fileId.getD ("")) with
        | none => simp [deleteOp, hg, hp, hlk] at hok
        | some f =>
            simp [deleteOp, hg, hp, hlk] at hok
            exact hok.symm
  · have hg' : truthy h.fileId = false := by simpa using hg
    simp [deleteOp, hg'] at hok

theorem shareOp_ok_same (h : Handle) (c : Cache) (d : DriveSt) (ems : Emails)
    (role : String) (h' : Handle) (hok : (shareOp h c d ems role).res = .ok h') : h' = h := by
  by_cases hg : truthy h.fileId = true
  · simp [shareOp, hg] at hok
    exact hok.symm
  · have hg' : truthy h.fileId = false := by simpa using hg
    simp [shareOp, hg'] at hok

theorem setAnyoneAccessOp_ok_same (h : Handle) (c : Cache) (d : DriveSt)
    (role : String) (h' : Handle)
    (hok : (setAnyoneAccessOp h c d role).res = .ok h') : h' = h := by
  by_cases hg : truthy h.fileId = true
  · simp [setAnyoneAccessOp, hg] at hok
    exact hok.symm
  · have hg' : truthy h.fileId = false := by simpa using hg
    simp [setAnyoneAccessOp, hg'] at hok

theorem removePermissionOp_ok_same (h : Handle) (c : Cache) (d : DriveSt)
    (em : String) (h' : Handle)
    (hok : (removePermissionOp h c d em).res = .ok h') : h' = h := by
  by_cases hg : truthy h.fileId = true
  · cases hfind : (permsOf d (h.fileId.getD (""))).find?
        (fun q => q.emailAddress == some em) with
    | none => simp [removePermissionOp, hg, hfind] at hok
    | some pm =>
        simp [removePermissionOp, hg, hfind] at hok
        exact hok.symm
  · have hg' : truthy h.fileId = false := by simpa using hg
    simp [removePermissionOp, hg'] at hok

theorem downloadOp_ok_same (h : Handle) (c : Cache) (d : DriveSt) (p : String)
    (h' : Handle) (hok : (downloadOp h c d p).res = .ok h') : h' = h := by
  by_cases hg : truthy h.fileId = true
  · simp [downloadOp, hg] at hok
    exact hok.symm
  · have hg' : truthy h.fileId = false := by simpa using hg
    simp [downloadOp, hg'] at hok

theorem uploadOp_ok_urlInv (h : Handle) (c : Cache) (d : DriveSt) (p : String)
    (h' : Handle) (hne : d.newIds.headD ("") ≠ "")
    (hok : (uploadOp h c d p).res = .ok h') : UrlInv h' := by
  simp only [uploadOp, Except.ok.injEq] at hok
  subst hok
  have ht : truthy (some (d.newIds.headD (""))) = true := truthy_some_of_ne _ hne
  exact ⟨Or.inr ⟨ht, rfl⟩, Or.inr ⟨ht, rfl⟩⟩

/-- The handles reachable through the wrapper: constructed by
`__init__` and transformed by property reads and the (successful)
operations.  `upload` steps carry the provider guarantee that the
assigned object id is a non-empty string. -/
inductive Reachable : Handle → Prop
  | ctor (fileId fileName folderId folderName : Option String) :
      Reachable (mkHandle fileId fileName folderId folderName)
  | urlStep (h : Handle) : Reachable h → Reachable (urlRead h).1
  | dlStep (h : Handle) : Reachable h → Reachable (downloadUrlRead h).1
  | initStep (h : Handle) (c : Cache) (d : DriveSt) (h' : Handle) :
      Reachable h → (initOp h c d).res = .ok h' → Reachable h'
  | uploadStep (h : Handle) (c : Cache) (d : DriveSt) (p : String) (h' : Handle) :
      Reachable h → d.newIds.headD ("") ≠ "" →
      (uploadOp h c d p).res = .ok h' → Reachable h'
  | updateStep (h : Handle) (c : Cache) (d : DriveSt) (p : String) (h' : Handle) :
      Reachable h → (updateOp h c d p).res = .ok h' → Reachable h'
  | downloadStep (h : Handle) (c : Cache) (d : DriveSt) (p : String) (h' : Handle) :
      Reachable h → (downloadOp h c d p).res = .ok h' → Reachable h'
  | renameStep (h : Handle) (c : Cache) (d : DriveSt) (nm : String) (h' : Handle) :
      Reachable h → (renameOp h c d nm).res = .ok h' → Reachable h'
  | moveStep (h : Handle) (c : Cache) (d : DriveSt) (fi fn : Option String) (h' : Handle) :
      Reachable h → (moveOp h c d fi fn).res = .ok h' → Reachable h'
  | deleteStep (h : Handle) (c : Cache) (d : DriveSt) (perm : Bool) (h' : Handle) :
      Reachable h → (deleteOp h c d perm).res = .ok h' → Reachable h'
  | shareStep (h : Handle) (c : Cache) (d : DriveSt) (ems : Emails) (role : String)
      (h' : Handle) :
      Reachable h → (shareOp h c d ems role).res = .ok h' → Reachable h'
  | anyoneStep (h : Handle) (c : Cache) (d : DriveSt) (role : String) (h' : Handle) :
      Reachable h → (setAnyoneAccessOp h c d role).res = .ok h' → Reachable h'
  | removePermStep (h : Handle) (c : Cache) (d : DriveSt) (em : String) (h' : Handle) :
      Reachable h → (removePermissionOp h c d em).res = .ok h' → Reachable h'

theorem urlInv_of_reachable (h : Handle) (hr : Reachable h) : UrlInv h := by
  induction hr with
  | ctor a b e g => exact ⟨Or.inl rfl, Or.inl rfl⟩
  | urlStep h hr ih =>
      cases hu : h.urlF with
      | some u =>
          have : (urlRead h).1 = h := by simp [urlRead, hu]
          rw [this]
          exact ih
      | none =>
          by_cases ht : truthy h.fileId = true
          · have : (urlRead h).1 = { h with urlF := some (viewUrl (h.fileId.getD (""))) } := by
              simp [urlRead, hu, ht]
            rw [this]
            refine ⟨Or.inr ⟨ht, rfl⟩, ?_⟩
            rcases ih.2 with hn | ⟨ht2, he⟩
            · exact Or.inl hn
            · exact Or.inr ⟨ht2, he⟩
          · have ht' : truthy h.fileId = false := by simpa using ht
            have : (urlRead h).1 = h := by simp [urlRead, hu, ht']
            rw [this]
            exact ih
  | dlStep h hr ih =>
      cases hu : h.downloadUrlF with
      | some u =>
          have : (downloadUrlRead h).1 = h := by simp [downloadUrlRead, hu]
          rw [this]
          exact ih
      | none =>
          by_cases ht : truthy h.fileId = true
          · have : (downloadUrlRead h).1 =
                { h with downloadUrlF := some (downloadUrlOf (h.fileId.getD (""))) } := by
              simp [downloadUrlRead, hu, ht]
            rw [this]
            refine ⟨?_, Or.inr ⟨ht, rfl⟩⟩
            rcases ih.1 with hn | ⟨ht2, he⟩
            · exact Or.inl hn
            · exact Or.inr ⟨ht2, he⟩
          · have ht' : truthy h.fileId = false := by simpa using ht
            have : (downloadUrlRead h).1 = h := by simp [downloadUrlRead, hu, ht']
            rw [this]
            exact ih
  | initStep h c d h' hr hok ih => exact initOp_ok_urlInv h c d h' ih hok
  | uploadStep h c d p h' hr hne hok ih => exact uploadOp_ok_urlInv h c d p h' hne hok
  | updateStep h c d p h' hr hok ih =>
      obtain ⟨h1, h2, h3⟩ := updateOp_ok_fields h c d p h' hok
      unfold UrlInv at ih ⊢
      rw [h1, h2, h3]
      exact ih
  | downloadStep h c d p h' hr hok ih =>
      rw [downloadOp_ok_same h c d p h' hok]
      exact ih
  | renameStep h c d nm h' hr hok ih =>
      obtain ⟨h1, h2, h3⟩ := renameOp_ok_fields h c d nm h' hok
      unfold UrlInv at ih ⊢
      rw [h1, h2, h3]
      exact ih
  | moveStep h c d fi fn h' hr hok ih =>
      obtain ⟨h1, h2, h3⟩ := moveOp_ok_fields h c d fi fn h' hok
      unfold UrlInv at ih ⊢
      rw [h1, h2, h3]
      exact ih
  | deleteStep h c d perm h' hr hok ih =>
      rw [deleteOp_ok_same h c d perm h' hok]
      exact ih
  | shareStep h c d ems role h' hr hok ih =>
      rw [shareOp_ok_same h c d ems role h' hok]
      exact ih
  | anyoneStep h c d role h' hr hok ih =>
      rw [setAnyoneAccessOp_ok_same h c d role h' hok]
      exact ih
  | removePermStep h c d em h' hr hok ih =>
      rw [removePermissionOp_ok_same h c d em h' hok]
      exact ih

/-- C2: on every reachable handle, the `url` property yields a value
iff `file_id` is set (truthy, i.e. a non-`None`, non-empty id — the
source's own `if self.file_id` test), and that value is exactly
`https://drive.google.com/file/d/{fileId}/view` for the current
`file_id`; likewise `download_url` yields exactly
`https://drive.google.com/uc?export=download&id={fileId}`. -/
theorem url_spec (h : Handle) (hr : Reachable h) :
    (urlRead h).2 =
      (if truthy h.fileId = true then some (viewUrl (h.fileId.getD (""))) else none)
  ∧ (downloadUrlRead h).2 =
      (if truthy h.fileId = true then some (downloadUrlOf (h.fileId.getD (""))) else none) := by
  have hinv := urlInv_of_reachable h hr
  constructor
  · cases hu : h.urlF with
    | some u =>
        rcases hinv.1 with hn | ⟨ht, he⟩
        · rw [hu] at hn
          cases hn
        · rw [hu] at he
          injection he with hue
          subst hue
          simp [urlRead, hu, ht]
    | none =>
        by_cases ht : truthy h.fileId = true
        · simp [urlRead, hu, ht]
        · have ht' : truthy h.fileId = false := by simpa using ht
          simp [urlRead, hu, ht']
  · cases hu : h.downloadUrlF with
    | some u =>
        rcases hinv.2 with hn | ⟨ht, he⟩
        · rw [hu] at hn
          cases hn
        · rw [hu] at he
          injection he with hue
          subst hue
          simp [downloadUrlRead, hu, ht]
    | none =>
        by_cases ht : truthy h.fileId = true
        · simp [downloadUrlRead, hu, ht]
        · have ht' : truthy h.fileId = false := by simpa using ht
          simp [downloadUrlRead, hu, ht']

theorem url_spec_witness :
    (urlRead hA).2 = some (viewUrl ("a1"))
  ∧ (urlRead hNoId).2 = none
  ∧ (downloadUrlRead hA).2 = some (downloadUrlOf ("a1")) := by
  refine ⟨?_, ?_, ?_⟩
  · rw [(url_spec hA (Reachable.ctor (some ("a1")) none none none)).1]
    decide
  · rw [(url_spec hNoId (Reachable.ctor none none none none)).1]
    decide
  · rw [(url_spec hA (Reachable.ctor (some ("a1")) none none none)).2]
    decide
